import Mathlib

/-
Shallow embedding of the cart-to-order reconciliation and revenue-accounting
subsystem of the Ecommerce-Site repository (src/server.js, src/CartItem.jsx).

Modelling conventions:
  * One user is modelled; the userId filters of the Mongo queries are implicit
    (every order in the state belongs to this user, every cart is his).
  * Mongo documents become Lean structures; collections become lists.
  * The duck-typed price access (product.new_price or product.newprice or 0)
    collapses to the single field new_price.
  * JS objects keyed by product id and size become association lists that keep
    insertion order, exactly as Object.entries iterates them.
  * Dates collapse to a Nat day key: order.createdAt is the day the order was
    created, and the revenue bucket key Date(year, month-1, day) is that Nat.
  * Money amounts are Int (the repository only ever adds and multiplies them).
-/

namespace Shop

/-- Item level status: in_cart on creation, checkedout after checkout
(src/server.js line 823 and line 3615 use the strings in_cart / checkedout). -/
inductive ItemStatus where
  | in_cart
  | checkedout
deriving DecidableEq, Repr

/-- Order lifecycle status, the five strings accepted by the admin status route
(src/server.js line 2128). -/
inductive OrderStatus where
  | pending
  | processing
  | shipped
  | delivered
  | cancelled
deriving DecidableEq, Repr

/-- A catalog product (the fields of the Product model that the cart and order
code reads). -/
structure Product where
  id : Nat
  name : String
  image : String
  new_price : Int
  sizes : List String
deriving DecidableEq, Repr

/-- The user profile fields denormalized into orders. -/
structure Profile where
  fullName : String
  email : String
  phone : String
  address : String
  governorate : String
deriving DecidableEq, Repr

/-- Customer contact info snapshot stored on an order. -/
structure CustomerInfo where
  fullName : String
  email : String
  phone : String
  address : String
  governorate : String
deriving DecidableEq, Repr

/-- An order line item, embedded in an order (src/server.js lines 815-824). -/
structure OrderItem where
  productId : Nat
  productName : String
  productImage : String
  quantity : Int
  price : Int
  size : String
  itemTotal : Int
  status : ItemStatus
deriving DecidableEq, Repr

/-- An order document (the fields of the Order model that the subsystem
reads or writes; notes and trackingNumber are omitted, no claim touches
them). -/
structure Order where
  orderId : String
  customerInfo : CustomerInfo
  items : List OrderItem
  total : Int
  status : OrderStatus
  paymentMethod : String
  paymentStatus : String
  transactionId : Option String
  cancellationReason : Option String
  cancelledAt : Option Nat
  deliveredAt : Option Nat
  createdAt : Nat
deriving DecidableEq, Repr

/-- A per-day revenue aggregate (src/server.js lines 729-741); the day, month
and year fields collapse into the single Nat key dateKey. -/
structure RevenueBucket where
  dateKey : Nat
  dailyRevenue : Int
  ordersCount : Int
  deliveredRevenue : Int
  pendingRevenue : Int
  cancelledRevenue : Int
  checkedoutRevenue : Int
deriving DecidableEq, Repr

/-- The cart of one user: product id to size to quantity, an association list
mirroring the nested JS object user.cartData. -/
abbrev SizeMap := List (String × Int)
abbrev CartData := List (Nat × SizeMap)

/-- The whole mutable state the subsystem touches for one user: his cart, the
order collection (restricted to his orders), the revenue ledger, his profile
and the current day. -/
structure St where
  cart : CartData
  orders : List Order
  ledger : List RevenueBucket
  profile : Profile
  today : Nat
deriving Repr

/-- cartData[pid]?.[size] with a 0 default. -/
def cartGet (c : CartData) (pid : Nat) (size : String) : Int :=
  match c.find? (fun e => decide (e.1 = pid)) with
  | some e =>
    match e.2.find? (fun sq => decide (sq.1 = size)) with
    | some sq => sq.2
    | none => 0
  | none => 0

/-- Set one size key of a size map, creating it at the end if absent
(JS object assignment). -/
def sizeMapSet (sm : SizeMap) (size : String) (q : Int) : SizeMap :=
  match sm with
  | [] => [(size, q)]
  | sq :: rest =>
    if sq.1 = size then (size, q) :: rest else sq :: sizeMapSet rest size q

/-- cartData[pid][size] = q, creating the product entry if absent. -/
def cartSet (c : CartData) (pid : Nat) (size : String) (q : Int) : CartData :=
  match c with
  | [] => [(pid, [(size, q)])]
  | e :: rest =>
    if e.1 = pid then (pid, sizeMapSet e.2 size q) :: rest
    else e :: cartSet rest pid size q

/-- delete cartData[pid][size], and delete cartData[pid] when its size map
becomes empty (src/server.js lines 3353-3358 and 3207-3214). -/
def cartDel (c : CartData) (pid : Nat) (size : String) : CartData :=
  match c with
  | [] => []
  | e :: rest =>
    if e.1 = pid then
      let sm := e.2.filter (fun sq => !(decide (sq.1 = size)))
      if sm.isEmpty then rest else (pid, sm) :: rest
    else e :: cartDel rest pid size

/-- The /addtocart cart write: add the delta to the current quantity and delete
the line when the result is not positive (src/server.js lines 3347-3358). -/
def cartApplyDelta (c : CartData) (pid : Nat) (size : String) (delta : Int) : CartData :=
  let newQ := cartGet c pid size + delta
  if newQ ≤ 0 then cartDel c pid size else cartSet c pid size newQ

/-- Product.findOne on the numeric id field. -/
def findProduct (catalog : List Product) (pid : Nat) : Option Product :=
  catalog.find? (fun p => decide (p.id = pid))

/-- The current catalog price of a product id (0 when the id is unknown,
matching the or-0 fallback of the source). -/
def priceOf (catalog : List Product) (pid : Nat) : Int :=
  match findProduct catalog pid with
  | some p => p.new_price
  | none => 0

/-- Boolean test used by every Order.findOne on status pending. -/
def isPendingB (o : Order) : Bool :=
  decide (o.status = OrderStatus.pending)

/-- Number of pending orders in the collection. -/
def countPending : List Order → Nat
  | [] => 0
  | o :: rest => (if isPendingB o then 1 else 0) + countPending rest

/-- Replace the first pending order by the given document: the effect of
Order.findOne on status pending followed by mutation and save. -/
def replaceFirstPending (o' : Order) : List Order → List Order
  | [] => []
  | o :: rest =>
    if isPendingB o then o' :: rest else o :: replaceFirstPending o' rest

/-- Boolean test for the item of an order matching a product id and size
(the findIndex predicate at src/server.js lines 851-853 and 3226-3228). -/
def matchItemB (pid : Nat) (size : String) (it : OrderItem) : Bool :=
  decide (it.productId = pid ∧ it.size = size)

/-- Whether an order already holds an item for this product id and size. -/
def hasItem (items : List OrderItem) (pid : Nat) (size : String) : Bool :=
  items.any (matchItemB pid size)

/-- Rewrite the first item matching (pid, size) into the (possibly empty) list
f produces: the findIndex / in-place mutation / splice idiom of the source. -/
def mapFirstItem (pid : Nat) (size : String) (f : OrderItem → List OrderItem) :
    List OrderItem → List OrderItem
  | [] => []
  | it :: rest =>
    if matchItemB pid size it then f it ++ rest
    else it :: mapFirstItem pid size f rest

/-- items.reduce((sum, item) => sum + item.itemTotal, 0). -/
def sumItemTotals : List OrderItem → Int
  | [] => 0
  | it :: rest => it.itemTotal + sumItemTotals rest

/-- Sum of itemTotal over the items whose status is checkedout
(the filter-reduce at src/server.js lines 756-758 and 771-773). -/
def checkedoutTotal : List OrderItem → Int
  | [] => 0
  | it :: rest =>
    (if it.status = ItemStatus.checkedout then it.itemTotal else 0) + checkedoutTotal rest

/-- Zero-padded sequential order id ORDnnnnnn (src/server.js lines 827-828). -/
def mkOrderId (n : Nat) : String :=
  let s := toString n
  String.mk (List.replicate (6 - s.length) '0') ++ s |> (fun t => "ORD" ++ t)

/-- A fresh all-zero bucket for a day (src/server.js lines 730-741). -/
def zeroBucket (key : Nat) : RevenueBucket :=
  { dateKey := key, dailyRevenue := 0, ordersCount := 0, deliveredRevenue := 0,
    pendingRevenue := 0, cancelledRevenue := 0, checkedoutRevenue := 0 }

/-- The Revenue.findOne match on the date key. -/
def keyEq (k : Nat) (b : RevenueBucket) : Bool :=
  decide (b.dateKey = k)

/-- Revenue.findOne on the date key, defaulting to a fresh zero bucket. -/
def bucketOf (l : List RevenueBucket) (key : Nat) : RevenueBucket :=
  match l.find? (keyEq key) with
  | some b => b
  | none => zeroBucket key

/-- revenue.save(): replace the first bucket with the same date key, or append
the new document. -/
def saveBucket : List RevenueBucket → RevenueBucket → List RevenueBucket
  | [], b => [b]
  | x :: rest, b =>
    if x.dateKey = b.dateKey then b :: rest else x :: saveBucket rest b

/-- The additive revenue logic shared verbatim by the add and update branches
of updateRevenue (src/server.js lines 746-759 and 761-774): order.total goes to
the bucket chosen by order.status, checked out item totals go to
checkedoutRevenue. -/
def applyRevenueCore (b : RevenueBucket) (o : Order) : RevenueBucket :=
  let t := o.total
  let b1 :=
    match o.status with
    | OrderStatus.delivered =>
      { b with deliveredRevenue := b.deliveredRevenue + t,
               dailyRevenue := b.dailyRevenue + t }
    | OrderStatus.cancelled =>
      { b with cancelledRevenue := b.cancelledRevenue + t }
    | _ =>
      { b with pendingRevenue := b.pendingRevenue + t }
  { b1 with checkedoutRevenue := b1.checkedoutRevenue + checkedoutTotal o.items }

/-- updateRevenue(orderData, action) (src/server.js lines 721-780): resolve the
creation-day bucket (creating a zeroed one when absent), on add increment
ordersCount and apply the additive logic, on update apply the same additive
logic, on any other action leave the counters alone, then save the bucket. -/
def updateRevenue (l : List RevenueBucket) (o : Order) (action : String) : List RevenueBucket :=
  let key := o.createdAt
  let b := bucketOf l key
  let b' :=
    if action = "add" then
      applyRevenueCore { b with ordersCount := b.ordersCount + 1 } o
    else if action = "update" then
      applyRevenueCore b o
    else b
  saveBucket l b'

/-- First-occurrence deduplication of day keys (the distinct group keys of the
daily aggregation pipeline). -/
def dedupKeys (seen : List Nat) : List Nat → List Nat
  | [] => []
  | k :: rest =>
    if seen.contains k then dedupKeys seen rest
    else k :: dedupKeys (k :: seen) rest

/-- The distinct day keys of a ledger, in first-appearance order. -/
def dayKeys (l : List RevenueBucket) : List Nat :=
  dedupKeys [] (l.map (fun b => b.dateKey))

/-- Sum of an Int field over the buckets of one day key (a $sum inside the
$group stage). -/
def sumBy (f : RevenueBucket → Int) (k : Nat) : List RevenueBucket → Int
  | [] => 0
  | b :: rest => (if b.dateKey = k then f b else 0) + sumBy f k rest

/-- The daily branch of GET /admin/revenue (src/server.js lines 2226-2236):
group buckets by day and report the summed deliveredRevenue and ordersCount.
The $sort by date and $limit 30 presentation stages are omitted. -/
def getRevenueDaily (l : List RevenueBucket) : List (Nat × Int × Int) :=
  (dayKeys l).map (fun k => (k, sumBy (fun b => b.deliveredRevenue) k l,
                                sumBy (fun b => b.ordersCount) k l))

/-- A falsy-string fallback: s or d in JS where s is a string. -/
def strOr (s d : String) : String :=
  if s = "" then d else s

/-- The sentinel unspecified value written for missing contact fields. -/
def unspecified : String := "غير محدد"

/-- Payment method normalization at the top of createOrUpdateOrder
(src/server.js lines 796-801). -/
def normalizePayment (pm : String) : String :=
  if pm = "online" then "bank_transfer"
  else if pm = "cash" then "cash_on_delivery"
  else pm

/-- A new in_cart order item built from the current catalog product
(src/server.js lines 815-824 and 870-879; the quantity and the precomputed
item total both use Math.abs of the delta). -/
def newInCartItem (p : Product) (q : Int) (size : String) : OrderItem :=
  { productId := p.id, productName := p.name, productImage := p.image,
    quantity := (q.natAbs : Int), price := p.new_price, size := size,
    itemTotal := p.new_price * (q.natAbs : Int), status := ItemStatus.in_cart }

/-- The customer info snapshot copied from the user profile with the fallback
sentinels (src/server.js lines 833-839). -/
def profileInfo (pr : Profile) : CustomerInfo :=
  { fullName := strOr pr.fullName "Unknown User", email := pr.email,
    phone := strOr pr.phone unspecified, address := strOr pr.address unspecified,
    governorate := strOr pr.governorate unspecified }

/-- The item-list effect of the update branch of createOrUpdateOrder
(src/server.js lines 851-880): merge the quantity delta into the matching
item (splicing it when its quantity drops to zero or below), or append a new
item for a positive delta on a missing line. -/
def mergeItems (p : Product) (q : Int) (size : String)
    (items : List OrderItem) : List OrderItem :=
  if hasItem items p.id size then
    mapFirstItem p.id size (fun it =>
      -- the source guards this branch on action equals add as well; action
      -- is always add at both call sites, so only the sign of q decides
      if q > 0 then
        [{ it with quantity := it.quantity + q,
                   itemTotal := it.itemTotal + p.new_price * (q.natAbs : Int) }]
      else if q < 0 then
        let newQty := it.quantity + q
        let it' := { it with quantity := newQty, itemTotal := it.price * newQty }
        if it'.quantity ≤ 0 then [] else [it']
      else [it]) items
  else if q > 0 then items ++ [newInCartItem p q size]
  else items

/-- The update branch of createOrUpdateOrder on an existing pending order
(src/server.js lines 849-896): merge the quantity delta into the item list,
refresh the payment method, recompute the total as the sum of the item
totals, and cancel the order when its item list becomes empty. -/
def mergeIntoOrder (p : Product) (q : Int) (size npm pm : String) (today : Nat)
    (o : Order) : Order :=
  let items1 := mergeItems p q size o.items
  let pm1 := if pm ≠ "" ∧ npm ≠ o.paymentMethod then npm else o.paymentMethod
  let total1 := sumItemTotals items1
  if items1.isEmpty then
    { o with items := items1, paymentMethod := pm1, total := total1,
             status := OrderStatus.cancelled, cancelledAt := some today,
             cancellationReason := some "All items removed from cart" }
  else
    { o with items := items1, paymentMethod := pm1, total := total1 }

/-- createOrUpdateOrder(user, product, quantity, size, paymentMethod, action)
(src/server.js lines 784-907) for the only action ever passed, add: find the
pending order of the user; when none exists and the delta is positive, create
a fresh pending order with one item and record it in the ledger with action
add; when one exists, merge the delta into it and record the mutation with
action update. -/
def createOrUpdateOrder (st : St) (p : Product) (q : Int) (size pm : String) : St :=
  let npm := normalizePayment pm
  match st.orders.find? isPendingB with
  | some o =>
    let o' := mergeIntoOrder p q size npm pm st.today o
    { st with orders := replaceFirstPending o' st.orders,
              ledger := updateRevenue st.ledger o' "update" }
  | none =>
    if q > 0 then
      let item := newInCartItem p q size
      let o : Order :=
        { orderId := mkOrderId (st.orders.length + 1),
          customerInfo := profileInfo st.profile,
          items := [item], total := item.itemTotal,
          status := OrderStatus.pending, paymentMethod := npm,
          paymentStatus := "pending", transactionId := none,
          cancellationReason := none, cancelledAt := none, deliveredAt := none,
          createdAt := st.today }
      { st with orders := st.orders ++ [o],
                ledger := updateRevenue st.ledger o "add" }
    else st

/-- POST /addtocart (src/server.js lines 3280-3385): validate the delta, the
size and the product, apply the delta to the cart (deleting lines that drop to
zero or below), then reconcile the pending order via createOrUpdateOrder. -/
def addToCartRoute (catalog : List Product) (st : St) (pid : Nat) (q : Int)
    (size pm : String) : Except String St :=
  if q = 0 then Except.error "Invalid quantity"
  else if size = "" ∨ size = "default" then Except.error "Size selection is required"
  else
    match findProduct catalog pid with
    | none => Except.error "Product not found"
    | some p =>
      let availableSizes := if p.sizes.isEmpty then ["S", "M", "L", "XL", "XXL"] else p.sizes
      if !(availableSizes.contains size) then Except.error "Invalid size selected"
      else
        let st1 := { st with cart := cartApplyDelta st.cart pid size q }
        Except.ok (createOrUpdateOrder st1 p q size pm)

/-- The item-list effect of /updatecartquantity on the pending order
(src/server.js lines 3226-3251): overwrite the matching item with the
absolute new quantity and an itemTotal at the current catalog price (splice
on zero), or append a new in_cart item when the line is new and positive. -/
def setQtyItems (p : Product) (pid : Nat) (size : String) (newQ : Int)
    (items : List OrderItem) : List OrderItem :=
  if hasItem items pid size then
    mapFirstItem pid size (fun it =>
      if newQ ≤ 0 then []
      else [{ it with quantity := newQ, itemTotal := p.new_price * newQ }]) items
  else if newQ > 0 then
    items ++ [{ productId := pid, productName := p.name, productImage := p.image,
                quantity := newQ, price := p.new_price, size := size,
                itemTotal := p.new_price * newQ, status := ItemStatus.in_cart }]
  else items

/-- The pending-order effect of /updatecartquantity (src/server.js lines
3225-3261): rewrite the item list, recompute the total, cancel on empty. -/
def setQtyOrder (p : Product) (pid : Nat) (size : String) (newQ : Int)
    (today : Nat) (o : Order) : Order :=
  let items1 := setQtyItems p pid size newQ o.items
  let total1 := sumItemTotals items1
  if items1.isEmpty then
    { o with items := items1, total := total1,
             status := OrderStatus.cancelled, cancelledAt := some today,
             cancellationReason := some "All items removed from cart" }
  else { o with items := items1, total := total1 }

/-- POST /updatecartquantity (src/server.js lines 3159-3279): the body
quantity is a delta on the current cart quantity; a negative result is
rejected, a zero result deletes the line, and the pending order is brought in
line (absolute overwrite of quantity and itemTotal at the current catalog
price, splice on zero, append on a new line, cancel on empty). -/
def updateCartQuantityRoute (catalog : List Product) (st : St) (pid : Nat)
    (size : String) (dq : Int) : Except String St :=
  if pid = 0 then Except.error "Missing required fields"
  else
    match findProduct catalog pid with
    | none => Except.error "Product not found"
    | some p =>
      let current := cartGet st.cart pid size
      let newQ := current + dq
      if newQ < 0 then Except.error "Quantity cannot be negative"
      else
        let cart1 := if newQ ≤ 0 then cartDel st.cart pid size
                     else cartSet st.cart pid size newQ
        let st1 := { st with cart := cart1 }
        match st1.orders.find? isPendingB with
        | none => Except.ok st1
        | some o =>
          let o' := setQtyOrder p pid size newQ st.today o
          Except.ok { st1 with orders := replaceFirstPending o' st1.orders,
                               ledger := updateRevenue st1.ledger o' "update" }

/-- POST /clearcart (src/server.js lines 3438-3473): cancel the pending order
with the cart-cleared reason, record the mutation in the ledger, then empty
the cart. -/
def clearCartRoute (st : St) : St :=
  let st1 :=
    match st.orders.find? isPendingB with
    | some o =>
      let o' := { o with status := OrderStatus.cancelled,
                         cancelledAt := some st.today,
                         cancellationReason := some "Cart cleared by user" }
      { st with orders := replaceFirstPending o' st.orders,
                ledger := updateRevenue st.ledger o' "update" }
    | none => st
  { st1 with cart := [] }

/-- One checked-out order item as the checkout loop builds it (src/server.js
lines 3601-3620): priced at the current catalog price, status checkedout. -/
def mkCheckedoutItem (p : Product) (pid : Nat) (size : String) (qty : Int) : OrderItem :=
  { productId := pid, productName := p.name, productImage := p.image,
    quantity := qty, price := p.new_price, size := size,
    itemTotal := p.new_price * qty, status := ItemStatus.checkedout }

/-- The per-size item construction of the checkout loop (src/server.js lines
3601-3620): skip non-positive quantities. -/
def checkoutSizeItems (p : Product) (pid : Nat) : SizeMap → List OrderItem
  | [] => []
  | (size, qty) :: rest =>
    (if qty > 0 then [mkCheckedoutItem p pid size qty] else [])
      ++ checkoutSizeItems p pid rest

/-- The full checked-out item list built from the cart (src/server.js lines
3595-3621); cart entries whose product id has no catalog match are skipped by
the continue. -/
def buildCheckoutItems (catalog : List Product) : CartData → List OrderItem
  | [] => []
  | (pid, sizes) :: rest =>
    (match findProduct catalog pid with
     | none => []
     | some p => checkoutSizeItems p pid sizes) ++ buildCheckoutItems catalog rest

/-- The totalAmount accumulated by the same loop. -/
def checkoutSizesTotal (p : Product) : SizeMap → Int
  | [] => 0
  | (_, qty) :: rest =>
    (if qty > 0 then p.new_price * qty else 0) + checkoutSizesTotal p rest

/-- The checkout total over the whole cart. -/
def checkoutTotal (catalog : List Product) : CartData → Int
  | [] => 0
  | (pid, sizes) :: rest =>
    (match findProduct catalog pid with
     | none => 0
     | some p => checkoutSizesTotal p sizes) + checkoutTotal catalog rest

/-- POST /checkout (src/server.js lines 3554-3730): validate the shipping data
and payment method, require a non-empty cart, build the checked-out item list
(skipping unknown products), empty the cart, then overwrite the pending order
with the checked-out list (or create a fresh pending order when none exists)
and record the ledger mutation. -/
def checkoutRoute (catalog : List Product) (st : St) (address phone pm : String)
    (tid : Option String) : Except String St :=
  if address = "" ∨ phone = "" ∨ pm = "" then
    Except.error "missing required checkout data"
  else if !(["cash_on_delivery", "bank_transfer", "stripe", "paypal"].contains pm) then
    Except.error "invalid payment method"
  else if st.cart.isEmpty then
    Except.error "empty cart"
  else
    let items := buildCheckoutItems catalog st.cart
    let total := checkoutTotal catalog st.cart
    let info : CustomerInfo :=
      { fullName := strOr st.profile.fullName "Unknown User",
        email := st.profile.email, phone := phone, address := address,
        governorate := unspecified }
    let st1 := { st with cart := [] }
    match st1.orders.find? isPendingB with
    | some o =>
      let o' := { o with items := items, total := total, customerInfo := info,
                         paymentMethod := pm, paymentStatus := "pending",
                         transactionId := tid }
      Except.ok { st1 with orders := replaceFirstPending o' st1.orders,
                           ledger := updateRevenue st1.ledger o' "update" }
    | none =>
      let o : Order :=
        { orderId := mkOrderId (st1.orders.length + 1), customerInfo := info,
          items := items, total := total, status := OrderStatus.pending,
          paymentMethod := pm, paymentStatus := "pending", transactionId := tid,
          cancellationReason := none, cancelledAt := none, deliveredAt := none,
          createdAt := st.today }
      Except.ok { st1 with orders := st1.orders ++ [o],
                           ledger := updateRevenue st1.ledger o "add" }

/-- The order mutation of the admin status route (src/server.js lines
2135-2162): set the new status and stamp delivery or cancellation
metadata. -/
def adminStatusOrder (o : Order) (s : OrderStatus) (reason : Option String)
    (today : Nat) : Order :=
  let o1 := { o with status := s }
  if s = OrderStatus.delivered then
    { o1 with deliveredAt := some today, paymentStatus := "paid" }
  else if s = OrderStatus.cancelled then
    { o1 with cancelledAt := some today, paymentStatus := "failed",
              cancellationReason :=
                match reason with
                | some r => some r
                | none => o1.cancellationReason }
  else o1

/-- POST /admin/orders/:orderId/status (src/server.js lines 2124-2187): set
the status of any order found by id (any of the five statuses, pending
included), stamp delivery or cancellation metadata, then record the mutation
in the ledger with action update. Orders are addressed by list index here,
standing for findById. -/
def setOrderStatusRoute (st : St) (idx : Nat) (s : OrderStatus)
    (reason : Option String) : Except String St :=
  match st.orders[idx]? with
  | none => Except.error "Order not found"
  | some o =>
    let o2 := adminStatusOrder o s reason st.today
    Except.ok { st with orders := st.orders.set idx o2,
                        ledger := updateRevenue st.ledger o2 "update" }

/-- DELETE /admin/orders/:orderId (src/server.js lines 2189-2212): record the
doomed order in the ledger with action remove, then delete the document. -/
def deleteOrderRoute (st : St) (idx : Nat) : Except String St :=
  match st.orders[idx]? with
  | none => Except.error "Order not found"
  | some o =>
    Except.ok { st with ledger := updateRevenue st.ledger o "remove",
                        orders := st.orders.eraseIdx idx }

/-- The operations the HTTP layer exposes on this state (the cart and order
mutation endpoints the claims quantify over). -/
inductive Op where
  | addToCart (pid : Nat) (q : Int) (size pm : String)
  | updateCartQuantity (pid : Nat) (size : String) (dq : Int)
  | clearCart
  | checkout (address phone pm : String) (tid : Option String)
  | setOrderStatus (idx : Nat) (s : OrderStatus) (reason : Option String)
  | deleteOrder (idx : Nat)

/-- Dispatch one operation. -/
def runOp (catalog : List Product) (st : St) : Op → Except String St
  | Op.addToCart pid q size pm => addToCartRoute catalog st pid q size pm
  | Op.updateCartQuantity pid size dq => updateCartQuantityRoute catalog st pid size dq
  | Op.clearCart => Except.ok (clearCartRoute st)
  | Op.checkout a ph pm tid => checkoutRoute catalog st a ph pm tid
  | Op.setOrderStatus i s r => setOrderStatusRoute st i s r
  | Op.deleteOrder i => deleteOrderRoute st i

/-- A rejected request leaves the persistent state untouched (every error
return of the routes happens before any write). -/
def applyOp (catalog : List Product) (st : St) (op : Op) : St :=
  match runOp catalog st op with
  | Except.ok st' => st'
  | Except.error _ => st

/-- Run a sequence of operations. -/
def applyOps (catalog : List Product) (st : St) : List Op → St
  | [] => st
  | op :: rest => applyOps catalog (applyOp catalog st op) rest

/-- The client set-quantity entry point updateCartQuantity(itemId, size,
newQuantity) of src/server.js lines 2967-3056: look the product up, no-op when
the new quantity equals the current one, otherwise send the difference through
the same POST /addtocart path as a plain add, with the cash payment hint. -/
def clientSetQuantity (catalog : List Product) (st : St) (pid : Nat)
    (size : String) (newQty : Int) : St :=
  match findProduct catalog pid with
  | none => st
  | some _ =>
    let current := cartGet st.cart pid size
    if newQty = current then st
    else applyOp catalog st (Op.addToCart pid (newQty - current) size "cash")

/-- The client quantity clamp of handleUpdateQuantity (src/CartItem.jsx lines
72-77): quantities below 1 become 1, quantities above 10 become 10. This is
the only place the maximum of 10 is enforced. -/
def clampQty (n : Int) : Int :=
  if n < 1 then 1 else if n > 10 then 10 else n

/-- A small two-product catalog used by the concrete scenario runs. -/
def catalog0 : List Product :=
  [{ id := 1, name := "Product One", image := "img1.png", new_price := 100,
     sizes := ["S", "M", "L", "XL", "XXL"] },
   { id := 2, name := "Product Two", image := "img2.png", new_price := 150,
     sizes := ["S", "M", "L", "XL", "XXL"] }]

/-- The initial state of a fresh user: empty cart, no orders, empty ledger. -/
def initSt : St :=
  { cart := [], orders := [], ledger := [],
    profile := { fullName := "Test User", email := "user@example.com",
                 phone := "0100000000", address := "Cairo Street 1",
                 governorate := "Cairo" },
    today := 0 }

/-- Every stored cart line quantity is positive. -/
def cartPositiveB (c : CartData) : Bool :=
  c.all (fun e => e.2.all (fun sq => decide (0 < sq.2)))

/-- Every stored cart line quantity is at most 10. -/
def cartWithinMaxB (c : CartData) : Bool :=
  c.all (fun e => e.2.all (fun sq => decide (sq.2 ≤ 10)))

/-- The total-consistency property of claim C2, as a decidable check: each
item total is price times quantity and each order total is the sum of its
item totals. -/
def totalConsistentB (st : St) : Bool :=
  st.orders.all (fun o =>
    o.items.all (fun it => decide (it.itemTotal = it.price * it.quantity)) &&
    decide (o.total = sumItemTotals o.items))

/-- The strengthened inductive invariant behind C2: on top of total
consistency, every stored item price agrees with the current catalog price of
its product (all item producing paths copy the catalog price). -/
def itemInvB (catalog : List Product) (it : OrderItem) : Bool :=
  decide (it.itemTotal = it.price * it.quantity ∧ it.price = priceOf catalog it.productId)

/-- Per-order form of the strengthened invariant. -/
def orderInvB (catalog : List Product) (o : Order) : Bool :=
  o.items.all (itemInvB catalog) && decide (o.total = sumItemTotals o.items)

/-- Whole-state form of the strengthened invariant. -/
def ordersInvB (catalog : List Product) (st : St) : Bool :=
  st.orders.all (orderInvB catalog)

/-- Operations that never force a status back to pending: the restriction
under which the single-pending-order invariant of C1 actually holds. -/
def opKeepsStatusForward : Op → Bool
  | Op.setOrderStatus _ s _ => !(decide (s = OrderStatus.pending))
  | _ => true

/-! ### Concrete runs used by the scenario claims -/

/-- Scenario A of the spec: one unit of product 1 (price 100), size M, added
to an empty cart. -/
def scenA : St := applyOps catalog0 initSt [Op.addToCart 1 1 "M" "cash"]

/-- Scenario B of the spec: two more units of the same product and size. -/
def scenB : St :=
  applyOps catalog0 initSt [Op.addToCart 1 1 "M" "cash", Op.addToCart 1 2 "M" "cash"]

/-- Scenario C of the spec: from the Scenario B state, the client set-quantity
entry point drops the only cart line to zero. -/
def scenC : St := clientSetQuantity catalog0 scenB 1 "M" 0

/-- The cart of Scenario D: two units of product 1 size M and one unit of
product 2 (price 150) size L, mirrored by a pending order. -/
def scenDpre : St :=
  applyOps catalog0 initSt [Op.addToCart 1 2 "M" "cash", Op.addToCart 2 1 "L" "cash"]

/-- Scenario D of the spec: checking that cart out. -/
def scenDpost : St :=
  applyOp catalog0 scenDpre (Op.checkout "Nile Street 5" "0100000000" "cash_on_delivery" none)

/-- A pending order with total 300 (two units of product 2 at price 150),
the starting point of Scenario E. -/
def scenEpre : St := applyOps catalog0 initSt [Op.addToCart 2 2 "L" "cash"]

/-- Scenario E of the spec: the admin marks that order delivered. -/
def scenEpost : St := applyOp catalog0 scenEpre (Op.setOrderStatus 0 OrderStatus.delivered none)

/-- An operation sequence refuting the unrestricted single-pending-order
invariant: create a pending order, cancel it by clearing the cart, create a
second pending order, then have the admin set the first order back to status
pending through the status endpoint. -/
def pendingResetOps : List Op :=
  [Op.addToCart 1 1 "M" "cash", Op.clearCart, Op.addToCart 1 1 "M" "cash",
   Op.setOrderStatus 0 OrderStatus.pending none]

/-- A single server-side add with a delta of 11 units: the storage layer
accepts it unchanged. -/
def bigAddState : St := applyOps catalog0 initSt [Op.addToCart 1 11 "M" "cash"]

/-- A cart holding a line for product 99, which is absent from the catalog:
the state a checkout with a stale cart entry starts from. -/
def staleCartState : St :=
  { initSt with cart := [(1, [("M", 1)]), (99, [("L", 2)])] }

/-- The checkout response on the stale cart. -/
def staleCheckoutRes : Except String St :=
  checkoutRoute catalog0 staleCartState "Nile Street 5" "0100000000" "cash_on_delivery" none

/-- The state after the stale checkout (the start state when it failed). -/
def staleCheckoutSt : St :=
  match staleCheckoutRes with
  | Except.ok s => s
  | Except.error _ => staleCartState

/-- Whether an Except result is a success response. -/
def exceptOk (r : Except String St) : Bool :=
  match r with
  | Except.ok _ => true
  | Except.error _ => false

/-! ### List bookkeeping lemmas -/

theorem countPending_append (l1 l2 : List Order) :
    countPending (l1 ++ l2) = countPending l1 + countPending l2 := by
  induction l1 with
  | nil => simp [countPending]
  | cons o rest ih => simp [countPending, ih, Nat.add_assoc]

theorem countPending_replaceFirstPending (o' : Order) (l : List Order) :
    countPending (replaceFirstPending o' l) ≤ countPending l := by
  induction l with
  | nil => simp [replaceFirstPending]
  | cons o rest ih =>
    cases h : isPendingB o with
    | true =>
      simp only [replaceFirstPending, h, if_true, countPending]
      split <;> omega
    | false =>
      simp only [replaceFirstPending, h, if_false, countPending]
      omega

theorem countPending_eq_zero_of_find?_none (l : List Order)
    (h : l.find? isPendingB = none) : countPending l = 0 := by
  induction l with
  | nil => rfl
  | cons o rest ih =>
    cases hc : isPendingB o with
    | true => rw [List.find?_cons_of_pos _ hc] at h; exact absurd h (by simp)
    | false =>
      rw [List.find?_cons_of_neg _ (by simp [hc])] at h
      simp [countPending, hc, ih h]

theorem countPending_set_le (l : List Order) (i : Nat) (o2 : Order)
    (h : isPendingB o2 = false) : countPending (l.set i o2) ≤ countPending l := by
  induction l generalizing i with
  | nil => simp
  | cons o rest ih =>
    cases i with
    | zero =>
      simp only [List.set_cons_zero, countPending, h, if_false]
      cases hpo : isPendingB o <;> simp [hpo]
    | succ n =>
      simp only [List.set_cons_succ, countPending]
      exact Nat.add_le_add_left (ih n) _

theorem countPending_eraseIdx_le (l : List Order) (i : Nat) :
    countPending (l.eraseIdx i) ≤ countPending l := by
  induction l generalizing i with
  | nil => simp [List.eraseIdx]
  | cons o rest ih =>
    cases i with
    | zero =>
      simp only [List.eraseIdx, countPending]
      cases hpo : isPendingB o <;> simp [hpo]
    | succ n =>
      simp only [List.eraseIdx, countPending]
      exact Nat.add_le_add_left (ih n) _

theorem find?_append_some {α : Type} (p : α → Bool) (l1 l2 : List α) (a : α)
    (h : l1.find? p = some a) : (l1 ++ l2).find? p = some a := by
  induction l1 with
  | nil => simp [List.find?] at h
  | cons x rest ih =>
    cases hc : p x with
    | true =>
      rw [List.find?_cons_of_pos _ hc] at h
      simpa [List.find?_cons_of_pos _ hc] using h
    | false =>
      rw [List.find?_cons_of_neg _ (by simp [hc])] at h
      rw [List.cons_append, List.find?_cons_of_neg _ (by simp [hc])]
      exact ih h

theorem find?_append_none {α : Type} (p : α → Bool) (l1 l2 : List α)
    (h : l1.find? p = none) : (l1 ++ l2).find? p = l2.find? p := by
  induction l1 with
  | nil => simp
  | cons x rest ih =>
    cases hc : p x with
    | true => rw [List.find?_cons_of_pos _ hc] at h; exact absurd h (by simp)
    | false =>
      rw [List.find?_cons_of_neg _ (by simp [hc])] at h
      rw [List.cons_append, List.find?_cons_of_neg _ (by simp [hc])]
      exact ih h

/-! ### Revenue ledger lemmas -/

theorem keyEq_true_iff (k : Nat) (b : RevenueBucket) :
    keyEq k b = true ↔ b.dateKey = k := by
  simp [keyEq]

theorem bucketOf_dateKey (l : List RevenueBucket) (k : Nat) :
    (bucketOf l k).dateKey = k := by
  unfold bucketOf
  cases h : l.find? (keyEq k) with
  | some b => exact (keyEq_true_iff k b).mp (List.find?_some h)
  | none => rfl

theorem applyRevenueCore_dateKey (b : RevenueBucket) (o : Order) :
    (applyRevenueCore b o).dateKey = b.dateKey := by
  cases h : o.status <;> simp [applyRevenueCore, h]

theorem saveBucket_self (l : List RevenueBucket) (k : Nat) (b : RevenueBucket)
    (h : l.find? (keyEq k) = some b) : saveBucket l b = l := by
  have hbk : b.dateKey = k := (keyEq_true_iff k b).mp (List.find?_some h)
  induction l with
  | nil => simp [List.find?] at h
  | cons x rest ih =>
    cases hc : keyEq k x with
    | true =>
      rw [List.find?_cons_of_pos _ hc] at h
      have hx : x = b := by simpa using h
      subst hx
      simp [saveBucket]
    | false =>
      rw [List.find?_cons_of_neg _ (by simp [hc])] at h
      have hxk : ¬ x.dateKey = k := by simpa [keyEq] using hc
      have hxb : ¬ x.dateKey = b.dateKey := by rw [hbk]; exact hxk
      simp [saveBucket, hxb, ih h]

theorem saveBucket_append (l : List RevenueBucket) (b : RevenueBucket)
    (h : l.find? (keyEq b.dateKey) = none) :
    saveBucket l b = l ++ [b] := by
  induction l with
  | nil => rfl
  | cons x rest ih =>
    cases hc : keyEq b.dateKey x with
    | true => rw [List.find?_cons_of_pos _ hc] at h; exact absurd h (by simp)
    | false =>
      rw [List.find?_cons_of_neg _ (by simp [hc])] at h
      have hxb : ¬ x.dateKey = b.dateKey := by simpa [keyEq] using hc
      simp [saveBucket, hxb, ih h]

theorem bucketOf_saveBucket_self (l : List RevenueBucket) (b : RevenueBucket)
    (k : Nat) (h : b.dateKey = k) : bucketOf (saveBucket l b) k = b := by
  have hb : keyEq k b = true := by simp [keyEq, h]
  induction l with
  | nil => simp [saveBucket, bucketOf, List.find?, hb]
  | cons x rest ih =>
    by_cases hc : x.dateKey = b.dateKey
    · simp only [saveBucket, hc, if_true]
      unfold bucketOf
      rw [List.find?_cons_of_pos _ hb]
    · have hxk : ¬ x.dateKey = k := by rw [← h]; exact hc
      have hx : keyEq k x = false := by simp [keyEq, hxk]
      simp only [saveBucket, hc, if_false]
      unfold bucketOf
      rw [List.find?_cons_of_neg _ (by simp [hx])]
      exact ih

theorem updateRevenue_update_def (l : List RevenueBucket) (o : Order) :
    updateRevenue l o "update"
      = saveBucket l (applyRevenueCore (bucketOf l o.createdAt) o) := by
  simp [updateRevenue]

theorem updateRevenue_add_def (l : List RevenueBucket) (o : Order) :
    updateRevenue l o "add"
      = saveBucket l (applyRevenueCore
          { bucketOf l o.createdAt with
            ordersCount := (bucketOf l o.createdAt).ordersCount + 1 } o) := by
  simp [updateRevenue]

theorem updateRevenue_remove_def (l : List RevenueBucket) (o : Order) :
    updateRevenue l o "remove" = saveBucket l (bucketOf l o.createdAt) := by
  simp [updateRevenue]

theorem bucketOf_updateRevenue_update (l : List RevenueBucket) (o : Order) :
    bucketOf (updateRevenue l o "update") o.createdAt
      = applyRevenueCore (bucketOf l o.createdAt) o := by
  rw [updateRevenue_update_def]
  exact bucketOf_saveBucket_self _ _ _
    (by rw [applyRevenueCore_dateKey, bucketOf_dateKey])

theorem bucketOf_updateRevenue_add (l : List RevenueBucket) (o : Order) :
    bucketOf (updateRevenue l o "add") o.createdAt
      = applyRevenueCore
          { bucketOf l o.createdAt with
            ordersCount := (bucketOf l o.createdAt).ordersCount + 1 } o := by
  rw [updateRevenue_add_def]
  exact bucketOf_saveBucket_self _ _ _
    (by rw [applyRevenueCore_dateKey]; exact bucketOf_dateKey l o.createdAt)

theorem applyRevenueCore_fields (b : RevenueBucket) (o : Order) :
    (applyRevenueCore b o).deliveredRevenue
      = b.deliveredRevenue + (if o.status = OrderStatus.delivered then o.total else 0)
    ∧ (applyRevenueCore b o).dailyRevenue
      = b.dailyRevenue + (if o.status = OrderStatus.delivered then o.total else 0)
    ∧ (applyRevenueCore b o).cancelledRevenue
      = b.cancelledRevenue + (if o.status = OrderStatus.cancelled then o.total else 0)
    ∧ (applyRevenueCore b o).pendingRevenue
      = b.pendingRevenue
        + (if o.status ≠ OrderStatus.delivered ∧ o.status ≠ OrderStatus.cancelled
           then o.total else 0)
    ∧ (applyRevenueCore b o).checkedoutRevenue
      = b.checkedoutRevenue + checkedoutTotal o.items
    ∧ (applyRevenueCore b o).ordersCount = b.ordersCount := by
  cases h : o.status <;> simp [applyRevenueCore, h]

/-- Claim C9: the admin delete-order endpoint records the doomed order with
action remove, which matches neither branch of updateRevenue, so,
observationally, every bucket of every day is unchanged by the deletion:
physically, the ledger is either untouched or extended with one all-zero
bucket for the creation day of the deleted order, whose counted contributions
are never subtracted. -/
theorem deleteOrder_leaves_revenue (catalog : List Product) (st : St) (i : Nat)
    (k' : Nat) :
    bucketOf (applyOp catalog st (Op.deleteOrder i)).ledger k' = bucketOf st.ledger k'
    ∧ ((applyOp catalog st (Op.deleteOrder i)).ledger = st.ledger
       ∨ ∃ d, (applyOp catalog st (Op.deleteOrder i)).ledger
                = st.ledger ++ [zeroBucket d]) := by
  simp only [applyOp, runOp, deleteOrderRoute]
  cases ho : st.orders[i]? with
  | none => exact ⟨rfl, Or.inl rfl⟩
  | some o =>
    simp only
    rw [updateRevenue_remove_def]
    cases hf : st.ledger.find? (keyEq o.createdAt) with
    | some b =>
      have hb : bucketOf st.ledger o.createdAt = b := by simp [bucketOf, hf]
      rw [hb, saveBucket_self st.ledger o.createdAt b hf]
      exact ⟨rfl, Or.inl rfl⟩
    | none =>
      have hb : bucketOf st.ledger o.createdAt = zeroBucket o.createdAt := by
        simp [bucketOf, hf]
      rw [hb, saveBucket_append st.ledger (zeroBucket o.createdAt) hf]
      refine ⟨?_, Or.inr ⟨o.createdAt, rfl⟩⟩
      unfold bucketOf
      cases h2 : st.ledger.find? (keyEq k') with
      | some a => rw [find?_append_some _ _ _ _ h2]
      | none =>
        rw [find?_append_none _ _ _ h2]
        by_cases hk : o.createdAt = k'
        · subst hk
          simp [List.find?, keyEq, zeroBucket]
        · have : keyEq k' (zeroBucket o.createdAt) = false := by
            simp [keyEq, zeroBucket, hk]
          simp [List.find?, this]

/-- Claim C3: updateRevenue with action update is purely additive: one call
adds order.total to the bucket field selected by the current status (both
deliveredRevenue and dailyRevenue for delivered, cancelledRevenue for
cancelled, pendingRevenue otherwise) and adds the checked-out item sum to
checkedoutRevenue, subtracting nothing; two calls on the same unchanged order
therefore add 2 * order.total to that field, so the update is not
idempotent. -/
theorem updateRevenue_update_not_idempotent (l : List RevenueBucket) (o : Order) :
    let k := o.createdAt
    let b0 := bucketOf l k
    let b1 := bucketOf (updateRevenue l o "update") k
    let b2 := bucketOf (updateRevenue (updateRevenue l o "update") o "update") k
    (b1.deliveredRevenue
       = b0.deliveredRevenue + (if o.status = OrderStatus.delivered then o.total else 0))
    ∧ (b1.dailyRevenue
       = b0.dailyRevenue + (if o.status = OrderStatus.delivered then o.total else 0))
    ∧ (b1.cancelledRevenue
       = b0.cancelledRevenue + (if o.status = OrderStatus.cancelled then o.total else 0))
    ∧ (b1.pendingRevenue
       = b0.pendingRevenue
         + (if o.status ≠ OrderStatus.delivered ∧ o.status ≠ OrderStatus.cancelled
            then o.total else 0))
    ∧ (b1.checkedoutRevenue = b0.checkedoutRevenue + checkedoutTotal o.items)
    ∧ (b1.ordersCount = b0.ordersCount)
    ∧ (b2.deliveredRevenue
       = b0.deliveredRevenue
         + (if o.status = OrderStatus.delivered then 2 * o.total else 0))
    ∧ (b2.dailyRevenue
       = b0.dailyRevenue + (if o.status = OrderStatus.delivered then 2 * o.total else 0))
    ∧ (b2.cancelledRevenue
       = b0.cancelledRevenue
         + (if o.status = OrderStatus.cancelled then 2 * o.total else 0))
    ∧ (b2.pendingRevenue
       = b0.pendingRevenue
         + (if o.status ≠ OrderStatus.delivered ∧ o.status ≠ OrderStatus.cancelled
            then 2 * o.total else 0))
    ∧ (b2.checkedoutRevenue = b0.checkedoutRevenue + 2 * checkedoutTotal o.items)
    ∧ (b2.ordersCount = b0.ordersCount) := by
  simp only
  simp only [bucketOf_updateRevenue_update]
  cases h : o.status <;> simp [applyRevenueCore, h] <;> omega

/-- Claim C7: updateRevenue with action add bumps the creation-day bucket by
one order, adds order.total to exactly one status field (deliveredRevenue and
dailyRevenue together for delivered, cancelledRevenue for cancelled,
pendingRevenue otherwise) and the checked-out item sum to checkedoutRevenue;
concretely, the first addToCart of one unit of the price-100 product creates
a pending order with itemTotal 100 and total 100 and the bucket of day 0
gains one order and 100 of pending revenue. -/
theorem updateRevenue_add_semantics :
    (∀ (l : List RevenueBucket) (o : Order),
      let b0 := bucketOf l o.createdAt
      let b1 := bucketOf (updateRevenue l o "add") o.createdAt
      b1.ordersCount = b0.ordersCount + 1
      ∧ (b1.deliveredRevenue
         = b0.deliveredRevenue + (if o.status = OrderStatus.delivered then o.total else 0))
      ∧ (b1.dailyRevenue
         = b0.dailyRevenue + (if o.status = OrderStatus.delivered then o.total else 0))
      ∧ (b1.cancelledRevenue
         = b0.cancelledRevenue + (if o.status = OrderStatus.cancelled then o.total else 0))
      ∧ (b1.pendingRevenue
         = b0.pendingRevenue
           + (if o.status ≠ OrderStatus.delivered ∧ o.status ≠ OrderStatus.cancelled
              then o.total else 0))
      ∧ (b1.checkedoutRevenue = b0.checkedoutRevenue + checkedoutTotal o.items))
    ∧ (scenA.cart = [(1, [("M", 1)])]
       ∧ scenA.orders.map (fun o => (o.status, o.total)) = [(OrderStatus.pending, 100)]
       ∧ scenA.orders.map (fun o =>
           o.items.map (fun it => (it.productId, it.quantity, it.price, it.itemTotal)))
         = [[(1, 1, 100, 100)]]
       ∧ scenA.orders.map (fun o => o.items.map (fun it => it.status))
         = [[ItemStatus.in_cart]]
       ∧ scenA.ledger
         = [{ dateKey := 0, dailyRevenue := 0, ordersCount := 1, deliveredRevenue := 0,
              pendingRevenue := 100, cancelledRevenue := 0, checkedoutRevenue := 0 }]) := by
  constructor
  · intro l o
    simp only
    simp only [bucketOf_updateRevenue_add]
    cases h : o.status <;> simp [applyRevenueCore, h] <;> omega
  · exact ⟨by decide, by decide, by decide, by decide, by decide⟩

/-- Claim C4: the client set-quantity entry point computes the difference to
the current quantity and pushes it through the addToCart path; from the
Scenario B state (cart product 1 size M quantity 3, mirrored by a pending
order with one item of itemTotal 300), setting the quantity to 0 removes the
cart line and the matching order item, and because it was the only item the
order becomes cancelled with the all-items-removed reason. -/
theorem setQuantityZero_cancels_order :
    scenB.cart = [(1, [("M", 3)])]
    ∧ scenB.orders.map (fun o => (o.status, o.total)) = [(OrderStatus.pending, 300)]
    ∧ scenB.orders.map (fun o =>
        o.items.map (fun it => (it.productId, it.size, it.quantity, it.itemTotal)))
      = [[(1, "M", 3, 300)]]
    ∧ scenC.cart = []
    ∧ scenC.orders.map (fun o => (o.status, o.items.length, o.cancellationReason))
      = [(OrderStatus.cancelled, 0, some "All items removed from cart")] := by
  exact ⟨by decide, by decide, by decide, by decide, by decide⟩

/-! ### Checkout construction lemmas -/

theorem sumItemTotals_append (l1 l2 : List OrderItem) :
    sumItemTotals (l1 ++ l2) = sumItemTotals l1 + sumItemTotals l2 := by
  induction l1 with
  | nil => simp [sumItemTotals]
  | cons it rest ih => simp [sumItemTotals, ih]; ring

theorem checkoutSizesTotal_eq (p : Product) (pid : Nat) (sizes : SizeMap) :
    checkoutSizesTotal p sizes = sumItemTotals (checkoutSizeItems p pid sizes) := by
  induction sizes with
  | nil => rfl
  | cons sq rest ih =>
    obtain ⟨size, qty⟩ := sq
    by_cases h : qty > 0 <;>
      simp [checkoutSizesTotal, checkoutSizeItems, h, sumItemTotals, sumItemTotals_append,
            mkCheckedoutItem, ih]

theorem checkoutTotal_eq (catalog : List Product) (cart : CartData) :
    checkoutTotal catalog cart = sumItemTotals (buildCheckoutItems catalog cart) := by
  induction cart with
  | nil => rfl
  | cons e rest ih =>
    obtain ⟨pid, sizes⟩ := e
    cases h : findProduct catalog pid with
    | none => simp [checkoutTotal, buildCheckoutItems, h, sumItemTotals, ih]
    | some p =>
      simp [checkoutTotal, buildCheckoutItems, h, sumItemTotals_append, ih,
            checkoutSizesTotal_eq p pid sizes]

theorem checkoutSizeItems_all (p : Product) (pid : Nat) (sizes : SizeMap)
    (P : OrderItem → Bool)
    (hP : ∀ size qty, qty > 0 → P (mkCheckedoutItem p pid size qty) = true) :
    (checkoutSizeItems p pid sizes).all P = true := by
  induction sizes with
  | nil => rfl
  | cons sq rest ih =>
    obtain ⟨size, qty⟩ := sq
    by_cases h : qty > 0 <;> simp [checkoutSizeItems, h, ih]
    exact hP size qty h

theorem buildCheckoutItems_shape (catalog : List Product) (cart : CartData) :
    (buildCheckoutItems catalog cart).all (fun it =>
      decide (it.status = ItemStatus.checkedout
              ∧ it.itemTotal = it.price * it.quantity)) = true := by
  induction cart with
  | nil => rfl
  | cons e rest ih =>
    obtain ⟨pid, sizes⟩ := e
    cases h : findProduct catalog pid with
    | none => simpa [buildCheckoutItems, h] using ih
    | some p =>
      simp only [buildCheckoutItems, h, List.all_append]
      rw [ih]
      rw [checkoutSizeItems_all p pid sizes _ (fun size qty _ => by simp [mkCheckedoutItem])]
      rfl

/-- Claim C5: for every cart, every order item the checkout builds has status
checkedout and itemTotal equal to price times quantity, and the order total
written is the sum of those item totals; concretely, checking out the cart of
Scenario D (two units of product 1 at 100, one unit of product 2 at 150)
leaves both resulting items checked out, keeps order.total at 350, empties
the cart and raises the checkedoutRevenue of day 0 by 350. -/
theorem checkout_builds_checkedout_items :
    (∀ (catalog : List Product) (cart : CartData),
      (buildCheckoutItems catalog cart).all (fun it =>
        decide (it.status = ItemStatus.checkedout
                ∧ it.itemTotal = it.price * it.quantity)) = true)
    ∧ (∀ (catalog : List Product) (cart : CartData),
        checkoutTotal catalog cart = sumItemTotals (buildCheckoutItems catalog cart))
    ∧ (scenDpre.cart = [(1, [("M", 2)]), (2, [("L", 1)])]
       ∧ scenDpre.orders.map (fun o => (o.status, o.total)) = [(OrderStatus.pending, 350)]
       ∧ scenDpost.cart = []
       ∧ scenDpost.orders.map (fun o => (o.status, o.total)) = [(OrderStatus.pending, 350)]
       ∧ scenDpost.orders.map (fun o =>
           o.items.map (fun it => (it.productId, it.size, it.quantity)))
         = [[(1, "M", 2), (2, "L", 1)]]
       ∧ scenDpost.orders.map (fun o =>
           o.items.map (fun it => (it.price, it.itemTotal, it.status)))
         = [[(100, 200, ItemStatus.checkedout), (150, 150, ItemStatus.checkedout)]]
       ∧ (bucketOf scenDpre.ledger 0).checkedoutRevenue = 0
       ∧ (bucketOf scenDpost.ledger 0).checkedoutRevenue = 350) := by
  refine ⟨buildCheckoutItems_shape, checkoutTotal_eq, ?_⟩
  exact ⟨by decide, by decide, by decide, by decide, by decide, by decide, by decide,
         by decide⟩

/-! ### Revenue query frame lemmas -/

theorem map_dateKey_map (s : RevenueBucket → RevenueBucket)
    (hdk : ∀ b, (s b).dateKey = b.dateKey) (l : List RevenueBucket) :
    (l.map s).map (fun b => b.dateKey) = l.map (fun b => b.dateKey) := by
  induction l with
  | nil => rfl
  | cons b rest ih => simp [hdk b, ih]

theorem sumBy_map (F : RevenueBucket → Int) (s : RevenueBucket → RevenueBucket)
    (hdk : ∀ b, (s b).dateKey = b.dateKey) (hF : ∀ b, F (s b) = F b)
    (k : Nat) (l : List RevenueBucket) :
    sumBy F k (l.map s) = sumBy F k l := by
  induction l with
  | nil => rfl
  | cons b rest ih => simp [sumBy, hdk b, hF b, ih]

/-- Claim C6: the daily revenue report is a function of the deliveredRevenue
and ordersCount fields alone, so pending and cancelled amounts never reach
the reported revenue; concretely, delivering the total-300 order of Scenario
E raises deliveredRevenue and dailyRevenue of its creation day from 0 to 300
and the daily report then shows day 0 with delivered revenue 300. -/
theorem delivered_revenue_report :
    (scenEpre.orders.map (fun o => o.total) = [300]
     ∧ (bucketOf scenEpre.ledger 0).deliveredRevenue = 0
     ∧ (bucketOf scenEpre.ledger 0).dailyRevenue = 0
     ∧ (bucketOf scenEpost.ledger 0).deliveredRevenue = 300
     ∧ (bucketOf scenEpost.ledger 0).dailyRevenue = 300
     ∧ scenEpost.orders.map (fun o => (o.status, o.paymentStatus))
       = [(OrderStatus.delivered, "paid")]
     ∧ getRevenueDaily scenEpost.ledger = [(0, 300, 1)])
    ∧ (∀ (l : List RevenueBucket) (f g : RevenueBucket → Int),
        getRevenueDaily
          (l.map (fun b => { b with pendingRevenue := f b, cancelledRevenue := g b }))
          = getRevenueDaily l) := by
  constructor
  · exact ⟨by decide, by decide, by decide, by decide, by decide, by decide, by decide⟩
  · intro l f g
    unfold getRevenueDaily
    have hkeys : dayKeys (l.map (fun b =>
        { b with pendingRevenue := f b, cancelledRevenue := g b })) = dayKeys l := by
      unfold dayKeys
      exact congrArg (dedupKeys [])
        (map_dateKey_map (fun b => { b with pendingRevenue := f b, cancelledRevenue := g b })
          (fun b => rfl) l)
    rw [hkeys]
    have hfun : (fun k => (k,
          sumBy (fun b => b.deliveredRevenue) k (l.map (fun b =>
            { b with pendingRevenue := f b, cancelledRevenue := g b })),
          sumBy (fun b => b.ordersCount) k (l.map (fun b =>
            { b with pendingRevenue := f b, cancelledRevenue := g b }))))
        = (fun k => (k, sumBy (fun b => b.deliveredRevenue) k l,
                        sumBy (fun b => b.ordersCount) k l)) := by
      funext k
      rw [sumBy_map (fun b => b.deliveredRevenue)
            (fun b => { b with pendingRevenue := f b, cancelledRevenue := g b })
            (fun b => rfl) (fun b => rfl) k l,
          sumBy_map (fun b => b.ordersCount)
            (fun b => { b with pendingRevenue := f b, cancelledRevenue := g b })
            (fun b => rfl) (fun b => rfl) k l]
    rw [hfun]

/-- Claim C10: checking out a cart that still holds a line for product 99,
which no longer exists in the catalog, succeeds: the unknown entry is
silently dropped, the cart is emptied, and the written order holds only the
item of the known product 1. -/
theorem checkout_skips_unknown_products :
    exceptOk staleCheckoutRes = true
    ∧ staleCheckoutSt.cart = []
    ∧ staleCheckoutSt.orders.map (fun o =>
        (o.status, o.total, o.items.map (fun it => it.productId)))
      = [(OrderStatus.pending, 100, [1])] := by
  exact ⟨by decide, by decide, by decide⟩

/-- Counterexample to claim C1 as frozen: after addToCart, clearCart,
addToCart and an admin status update back to pending - all operations from
the list of the claim - the user has two orders with status pending. -/
theorem pending_reset_two_pending_orders :
    countPending (applyOps catalog0 initSt pendingResetOps).orders = 2
    ∧ ¬ countPending (applyOps catalog0 initSt pendingResetOps).orders ≤ 1 := by
  exact ⟨by decide, by decide⟩

/-- Counterexample to claim C8 as frozen: a single server-side addToCart with
delta 11 stores a cart line of quantity 11, above the claimed maximum of
10. -/
theorem addToCart_stores_above_max :
    cartGet bigAddState.cart 1 "M" = 11
    ∧ cartWithinMaxB bigAddState.cart = false := by
  exact ⟨by decide, by decide⟩

/-! ### Preservation of the single-pending-order invariant (C1) -/

theorem adminStatusOrder_status (o : Order) (s : OrderStatus)
    (reason : Option String) (today : Nat) :
    (adminStatusOrder o s reason today).status = s := by
  unfold adminStatusOrder
  split
  · rfl
  · split <;> rfl

theorem createOrUpdateOrder_pending (st : St) (p : Product) (q : Int)
    (size pm : String) (h1 : countPending st.orders ≤ 1) :
    countPending (createOrUpdateOrder st p q size pm).orders ≤ 1 := by
  unfold createOrUpdateOrder
  cases hf : st.orders.find? isPendingB with
  | some o =>
    simp only [hf]
    exact le_trans (countPending_replaceFirstPending _ _) h1
  | none =>
    simp only [hf]
    split
    · simp [countPending_append, countPending_eq_zero_of_find?_none _ hf,
            countPending, isPendingB]
    · exact h1

theorem addToCart_ok_pending (catalog : List Product) (st : St) (pid : Nat)
    (q : Int) (size pm : String) (st' : St)
    (hr : addToCartRoute catalog st pid q size pm = Except.ok st')
    (h1 : countPending st.orders ≤ 1) : countPending st'.orders ≤ 1 := by
  by_cases h0 : q = 0
  · simp [addToCartRoute, h0] at hr
  by_cases hsz : size = "" ∨ size = "default"
  · simp [addToCartRoute, h0, hsz] at hr
  cases hp : findProduct catalog pid with
  | none => simp [addToCartRoute, h0, hsz, hp] at hr
  | some p =>
    by_cases hct : size ∈ (if p.sizes = [] then ["S", "M", "L", "XL", "XXL"] else p.sizes)
    · simp [addToCartRoute, h0, hsz, hp, hct] at hr
      subst hr
      exact createOrUpdateOrder_pending _ _ _ _ _ h1
    · simp [addToCartRoute, h0, hsz, hp, hct] at hr

theorem updateCartQuantity_ok_pending (catalog : List Product) (st : St)
    (pid : Nat) (size : String) (dq : Int) (st' : St)
    (hr : updateCartQuantityRoute catalog st pid size dq = Except.ok st')
    (h1 : countPending st.orders ≤ 1) : countPending st'.orders ≤ 1 := by
  by_cases h0 : pid = 0
  · simp [updateCartQuantityRoute, h0] at hr
  cases hp : findProduct catalog pid with
  | none => simp [updateCartQuantityRoute, h0, hp] at hr
  | some p =>
    by_cases hneg : cartGet st.cart pid size + dq < 0
    · simp [updateCartQuantityRoute, h0, hp, hneg] at hr
    · cases hf : st.orders.find? isPendingB with
      | none =>
        simp [updateCartQuantityRoute, h0, hp, hneg, hf] at hr
        subst hr
        exact h1
      | some o =>
        simp [updateCartQuantityRoute, h0, hp, hneg, hf] at hr
        subst hr
        exact le_trans (countPending_replaceFirstPending _ _) h1

theorem clearCart_pending (st : St) (h1 : countPending st.orders ≤ 1) :
    countPending (clearCartRoute st).orders ≤ 1 := by
  unfold clearCartRoute
  cases hf : st.orders.find? isPendingB with
  | some o =>
    simp only [hf]
    exact le_trans (countPending_replaceFirstPending _ _) h1
  | none => simpa only [hf] using h1

theorem checkout_ok_pending (catalog : List Product) (st : St)
    (address phone pm : String) (tid : Option String) (st' : St)
    (hr : checkoutRoute catalog st address phone pm tid = Except.ok st')
    (h1 : countPending st.orders ≤ 1) : countPending st'.orders ≤ 1 := by
  by_cases hv : address = "" ∨ phone = "" ∨ pm = ""
  · simp [checkoutRoute, hv] at hr
  by_cases hpm : ¬pm = "cash_on_delivery" ∧ ¬pm = "bank_transfer"
      ∧ ¬pm = "stripe" ∧ ¬pm = "paypal"
  · simp [checkoutRoute, hv, hpm] at hr
  by_cases hce : st.cart = []
  · simp [checkoutRoute, hv, hpm, hce] at hr
  cases hf : st.orders.find? isPendingB with
  | some o =>
    simp [checkoutRoute, hv, hpm, hce, hf] at hr
    subst hr
    exact le_trans (countPending_replaceFirstPending _ _) h1
  | none =>
    simp [checkoutRoute, hv, hpm, hce, hf] at hr
    subst hr
    simp [countPending_append, countPending_eq_zero_of_find?_none _ hf,
          countPending, isPendingB]

theorem setOrderStatus_ok_pending (st : St) (idx : Nat) (s : OrderStatus)
    (reason : Option String) (st' : St) (hs : s ≠ OrderStatus.pending)
    (hr : setOrderStatusRoute st idx s reason = Except.ok st')
    (h1 : countPending st.orders ≤ 1) : countPending st'.orders ≤ 1 := by
  cases ho : st.orders[idx]? with
  | none => simp [setOrderStatusRoute, ho] at hr
  | some o =>
    simp [setOrderStatusRoute, ho] at hr
    subst hr
    refine le_trans (countPending_set_le _ _ _ ?_) h1
    simp [isPendingB, adminStatusOrder_status, hs]

theorem deleteOrder_ok_pending (st : St) (idx : Nat) (st' : St)
    (hr : deleteOrderRoute st idx = Except.ok st')
    (h1 : countPending st.orders ≤ 1) : countPending st'.orders ≤ 1 := by
  cases ho : st.orders[idx]? with
  | none => simp [deleteOrderRoute, ho] at hr
  | some o =>
    simp [deleteOrderRoute, ho] at hr
    subst hr
    exact le_trans (countPending_eraseIdx_le _ _) h1

theorem applyOp_pending (catalog : List Product) (st : St) (op : Op)
    (hop : opKeepsStatusForward op = true)
    (h1 : countPending st.orders ≤ 1) :
    countPending (applyOp catalog st op).orders ≤ 1 := by
  cases op with
  | addToCart pid q size pm =>
    simp only [applyOp, runOp]
    cases hr : addToCartRoute catalog st pid q size pm with
    | ok st' => exact addToCart_ok_pending _ _ _ _ _ _ _ hr h1
    | error e => exact h1
  | updateCartQuantity pid size dq =>
    simp only [applyOp, runOp]
    cases hr : updateCartQuantityRoute catalog st pid size dq with
    | ok st' => exact updateCartQuantity_ok_pending _ _ _ _ _ _ hr h1
    | error e => exact h1
  | clearCart =>
    simp only [applyOp, runOp]
    exact clearCart_pending _ h1
  | checkout a ph pm tid =>
    simp only [applyOp, runOp]
    cases hr : checkoutRoute catalog st a ph pm tid with
    | ok st' => exact checkout_ok_pending _ _ _ _ _ _ _ hr h1
    | error e => exact h1
  | setOrderStatus idx s reason =>
    have hs : s ≠ OrderStatus.pending := by
      simpa [opKeepsStatusForward] using hop
    simp only [applyOp, runOp]
    cases hr : setOrderStatusRoute st idx s reason with
    | ok st' => exact setOrderStatus_ok_pending _ _ _ _ _ hs hr h1
    | error e => exact h1
  | deleteOrder idx =>
    simp only [applyOp, runOp]
    cases hr : deleteOrderRoute st idx with
    | ok st' => exact deleteOrder_ok_pending _ _ _ hr h1
    | error e => exact h1

theorem applyOps_pending (catalog : List Product) (ops : List Op) (st : St)
    (hops : ops.all opKeepsStatusForward = true)
    (h1 : countPending st.orders ≤ 1) :
    countPending (applyOps catalog st ops).orders ≤ 1 := by
  induction ops generalizing st with
  | nil => exact h1
  | cons op rest ih =>
    simp only [List.all_cons, Bool.and_eq_true] at hops
    exact ih _ hops.2 (applyOp_pending catalog st op hops.1 h1)

/-- Claim C1 (amended): starting from a fresh user, after any sequence of
addToCart, updateCartQuantity, clearCart, checkout, deleteOrder and
setOrderStatus operations in which setOrderStatus never sets the status back
to pending, at most one order with status pending exists: every order
creation path first queries for an existing pending order and creates a new
one only when none is found. The restriction is forced by the status route,
which accepts pending as a target and can thereby revive a second pending
order (see the counterexample). -/
theorem single_pending_order_invariant (catalog : List Product) (ops : List Op)
    (hops : ops.all opKeepsStatusForward = true) :
    countPending (applyOps catalog initSt ops).orders ≤ 1 :=
  applyOps_pending catalog ops initSt hops (by decide)

/-- Witness for the amended C1 theorem at a concrete operation sequence. -/
theorem single_pending_order_invariant_wit :
    ([Op.addToCart 1 1 "M" "cash", Op.clearCart,
      Op.addToCart 2 2 "L" "cash"].all opKeepsStatusForward = true)
    ∧ countPending (applyOps catalog0 initSt
        [Op.addToCart 1 1 "M" "cash", Op.clearCart,
         Op.addToCart 2 2 "L" "cash"]).orders ≤ 1 :=
  ⟨by decide, single_pending_order_invariant catalog0
    [Op.addToCart 1 1 "M" "cash", Op.clearCart, Op.addToCart 2 2 "L" "cash"]
    (by decide)⟩

/-! ### Preservation of total consistency (C2) -/

theorem all_mono {α : Type} (P Q : α → Bool) (h : ∀ a, P a = true → Q a = true)
    (l : List α) (hl : l.all P = true) : l.all Q = true := by
  induction l with
  | nil => rfl
  | cons a rest ih =>
    simp only [List.all_cons, Bool.and_eq_true] at hl ⊢
    exact ⟨h a hl.1, ih hl.2⟩

theorem all_replaceFirstPending (P : Order → Bool) (o' : Order) (l : List Order)
    (hl : l.all P = true) (ho : P o' = true) :
    (replaceFirstPending o' l).all P = true := by
  induction l with
  | nil => rfl
  | cons o rest ih =>
    simp only [List.all_cons, Bool.and_eq_true] at hl
    by_cases hp : isPendingB o = true
    · simp [replaceFirstPending, hp, ho, hl.2]
    · simp [replaceFirstPending, hp, hl.1]
      exact List.all_eq_true.mp (ih hl.2)

theorem all_set (P : Order → Bool) (l : List Order) (i : Nat) (x : Order)
    (hl : l.all P = true) (hx : P x = true) : (l.set i x).all P = true := by
  induction l generalizing i with
  | nil => rfl
  | cons o rest ih =>
    simp only [List.all_cons, Bool.and_eq_true] at hl
    cases i with
    | zero => simp [List.set_cons_zero, hx, hl.2]
    | succ n =>
      simp only [List.set_cons_succ, List.all_cons, Bool.and_eq_true]
      exact ⟨hl.1, ih n hl.2⟩

theorem all_eraseIdx (P : Order → Bool) (l : List Order) (i : Nat)
    (hl : l.all P = true) : (l.eraseIdx i).all P = true := by
  induction l generalizing i with
  | nil => rfl
  | cons o rest ih =>
    simp only [List.all_cons, Bool.and_eq_true] at hl
    cases i with
    | zero => simp [List.eraseIdx, hl.2]
    | succ n =>
      simp only [List.eraseIdx, List.all_cons, Bool.and_eq_true]
      exact ⟨hl.1, ih n hl.2⟩

theorem all_getElem? (P : Order → Bool) (l : List Order) (i : Nat) (o : Order)
    (hl : l.all P = true) (h : l[i]? = some o) : P o = true := by
  induction l generalizing i with
  | nil => simp at h
  | cons x rest ih =>
    simp only [List.all_cons, Bool.and_eq_true] at hl
    cases i with
    | zero =>
      rw [List.getElem?_cons_zero] at h
      cases h
      exact hl.1
    | succ n =>
      rw [List.getElem?_cons_succ] at h
      exact ih n hl.2 h

theorem all_mapFirstItem (pid : Nat) (size : String)
    (f : OrderItem → List OrderItem) (P : OrderItem → Bool)
    (hf : ∀ it, matchItemB pid size it = true → P it = true → (f it).all P = true)
    (items : List OrderItem) (hl : items.all P = true) :
    (mapFirstItem pid size f items).all P = true := by
  induction items with
  | nil => rfl
  | cons it rest ih =>
    simp only [List.all_cons, Bool.and_eq_true] at hl
    by_cases hm : matchItemB pid size it = true
    · simp only [mapFirstItem, hm, if_true, List.all_append, Bool.and_eq_true]
      exact ⟨hf it hm hl.1, hl.2⟩
    · simp [mapFirstItem, hm, hl.1]
      exact List.all_eq_true.mp (ih hl.2)

theorem findProduct_id (catalog : List Product) (pid : Nat) (p : Product)
    (h : findProduct catalog pid = some p) : p.id = pid := by
  simpa using List.find?_some h

theorem priceOf_findProduct (catalog : List Product) (pid : Nat) (p : Product)
    (h : findProduct catalog pid = some p) : priceOf catalog pid = p.new_price := by
  simp [priceOf, h]

theorem mergeItems_inv (catalog : List Product) (p : Product) (q : Int)
    (size : String) (items : List OrderItem)
    (hp : findProduct catalog p.id = some p)
    (hl : items.all (itemInvB catalog) = true) :
    (mergeItems p q size items).all (itemInvB catalog) = true := by
  have hpr : priceOf catalog p.id = p.new_price := priceOf_findProduct _ _ _ hp
  unfold mergeItems
  by_cases hh : hasItem items p.id size = true
  · simp only [hh, if_true]
    refine all_mapFirstItem _ _ _ _ ?_ items hl
    intro it hm hi
    simp only [matchItemB, decide_eq_true_eq] at hm
    simp only [itemInvB, decide_eq_true_eq] at hi
    have hpe : it.price = p.new_price := by rw [hi.2, hm.1, hpr]
    by_cases hq : q > 0
    · have hqa : ((q.natAbs : Int)) = q := Int.natAbs_of_nonneg (le_of_lt hq)
      simp only [hq, if_true, List.all_cons, List.all_nil, Bool.and_true,
                 itemInvB, decide_eq_true_eq]
      refine ⟨?_, hi.2⟩
      rw [hi.1, hqa, hpe]
      ring
    · by_cases hq2 : q < 0
      · by_cases hz : it.quantity + q ≤ 0
        · simp [hq, hq2, hz]
        · simp only [hq, hq2, hz, if_true, if_false, List.all_cons, List.all_nil,
                     Bool.and_true, itemInvB, decide_eq_true_eq]
          simp
          exact hi.2
      · simp only [hq, hq2, if_false, List.all_cons, List.all_nil, Bool.and_true,
                   itemInvB, decide_eq_true_eq]
        exact hi
  · by_cases hq : q > 0
    · simp only [hh, hq, if_true, if_false, Bool.false_eq_true, List.all_append,
                 Bool.and_eq_true]
      refine ⟨hl, ?_⟩
      simp [newInCartItem, itemInvB, hpr]
    · simp [hh, hq, hl]

theorem mergeIntoOrder_inv (catalog : List Product) (p : Product) (q : Int)
    (size npm pm : String) (today : Nat) (o : Order)
    (hp : findProduct catalog p.id = some p)
    (ho : orderInvB catalog o = true) :
    orderInvB catalog (mergeIntoOrder p q size npm pm today o) = true := by
  simp only [orderInvB, Bool.and_eq_true] at ho
  have hi := mergeItems_inv catalog p q size o.items hp ho.1
  simp only [mergeIntoOrder]
  split <;> simp [orderInvB, hi]

theorem setQtyItems_inv (catalog : List Product) (p : Product) (pid : Nat)
    (size : String) (newQ : Int) (items : List OrderItem)
    (hp : findProduct catalog pid = some p)
    (hl : items.all (itemInvB catalog) = true) :
    (setQtyItems p pid size newQ items).all (itemInvB catalog) = true := by
  have hpr : priceOf catalog pid = p.new_price := priceOf_findProduct _ _ _ hp
  unfold setQtyItems
  by_cases hh : hasItem items pid size = true
  · simp only [hh, if_true]
    refine all_mapFirstItem _ _ _ _ ?_ items hl
    intro it hm hi
    simp only [matchItemB, decide_eq_true_eq] at hm
    simp only [itemInvB, decide_eq_true_eq] at hi
    have hpe : it.price = p.new_price := by rw [hi.2, hm.1, hpr]
    by_cases hz : newQ ≤ 0
    · simp [hz]
    · simp only [hz, if_false, List.all_cons, List.all_nil, Bool.and_true,
                 itemInvB, decide_eq_true_eq]
      refine ⟨?_, hi.2⟩
      rw [hpe]
  · by_cases hq : newQ > 0
    · simp only [hh, hq, if_true, if_false, Bool.false_eq_true, List.all_append,
                 Bool.and_eq_true]
      refine ⟨hl, ?_⟩
      simp [itemInvB, hpr]
    · simp [hh, hq, hl]

theorem setQtyOrder_inv (catalog : List Product) (p : Product) (pid : Nat)
    (size : String) (newQ : Int) (today : Nat) (o : Order)
    (hp : findProduct catalog pid = some p)
    (ho : orderInvB catalog o = true) :
    orderInvB catalog (setQtyOrder p pid size newQ today o) = true := by
  simp only [orderInvB, Bool.and_eq_true] at ho
  have hi := setQtyItems_inv catalog p pid size newQ o.items hp ho.1
  simp only [setQtyOrder]
  split <;> simp [orderInvB, hi]

theorem buildCheckoutItems_inv (catalog : List Product) (cart : CartData) :
    (buildCheckoutItems catalog cart).all (itemInvB catalog) = true := by
  induction cart with
  | nil => rfl
  | cons e rest ih =>
    obtain ⟨pid, sizes⟩ := e
    cases hp : findProduct catalog pid with
    | none => simpa [buildCheckoutItems, hp] using ih
    | some p =>
      simp only [buildCheckoutItems, hp, List.all_append, Bool.and_eq_true]
      refine ⟨?_, ih⟩
      refine checkoutSizeItems_all p pid sizes _ ?_
      intro size qty _
      simp [mkCheckedoutItem, itemInvB, priceOf_findProduct _ _ _ hp]

theorem orderInvB_of_eq (catalog : List Product) (o o' : Order)
    (hi : o'.items = o.items) (ht : o'.total = o.total)
    (h : orderInvB catalog o = true) : orderInvB catalog o' = true := by
  unfold orderInvB at h ⊢
  rw [hi, ht]
  exact h

theorem adminStatusOrder_items (o : Order) (s : OrderStatus)
    (reason : Option String) (today : Nat) :
    (adminStatusOrder o s reason today).items = o.items := by
  unfold adminStatusOrder
  split
  · rfl
  · split <;> rfl

theorem adminStatusOrder_total (o : Order) (s : OrderStatus)
    (reason : Option String) (today : Nat) :
    (adminStatusOrder o s reason today).total = o.total := by
  unfold adminStatusOrder
  split
  · rfl
  · split <;> rfl

theorem createOrUpdateOrder_inv (catalog : List Product) (st : St) (p : Product)
    (q : Int) (size pm : String) (hp : findProduct catalog p.id = some p)
    (h1 : ordersInvB catalog st = true) :
    ordersInvB catalog (createOrUpdateOrder st p q size pm) = true := by
  unfold ordersInvB at h1 ⊢
  unfold createOrUpdateOrder
  cases hf : st.orders.find? isPendingB with
  | some o =>
    simp only [hf]
    have hoo : orderInvB catalog o = true :=
      List.all_eq_true.mp h1 o (List.mem_of_find?_eq_some hf)
    exact all_replaceFirstPending _ _ _ h1
      (mergeIntoOrder_inv catalog p q size _ pm st.today o hp hoo)
  | none =>
    simp only [hf]
    split
    · simp only [List.all_append, Bool.and_eq_true]
      refine ⟨h1, ?_⟩
      simp [orderInvB, newInCartItem, itemInvB, sumItemTotals,
            priceOf_findProduct _ _ _ hp]
    · exact h1

theorem addToCart_ok_inv (catalog : List Product) (st : St) (pid : Nat)
    (q : Int) (size pm : String) (st' : St)
    (hr : addToCartRoute catalog st pid q size pm = Except.ok st')
    (h1 : ordersInvB catalog st = true) : ordersInvB catalog st' = true := by
  by_cases h0 : q = 0
  · simp [addToCartRoute, h0] at hr
  by_cases hsz : size = "" ∨ size = "default"
  · simp [addToCartRoute, h0, hsz] at hr
  cases hp : findProduct catalog pid with
  | none => simp [addToCartRoute, h0, hsz, hp] at hr
  | some p =>
    have hp' : findProduct catalog p.id = some p := by
      rw [findProduct_id catalog pid p hp]
      exact hp
    by_cases hct : size ∈ (if p.sizes = [] then ["S", "M", "L", "XL", "XXL"] else p.sizes)
    · simp [addToCartRoute, h0, hsz, hp, hct] at hr
      subst hr
      exact createOrUpdateOrder_inv catalog _ p q size pm hp' h1
    · simp [addToCartRoute, h0, hsz, hp, hct] at hr

theorem updateCartQuantity_ok_inv (catalog : List Product) (st : St)
    (pid : Nat) (size : String) (dq : Int) (st' : St)
    (hr : updateCartQuantityRoute catalog st pid size dq = Except.ok st')
    (h1 : ordersInvB catalog st = true) : ordersInvB catalog st' = true := by
  by_cases h0 : pid = 0
  · simp [updateCartQuantityRoute, h0] at hr
  cases hp : findProduct catalog pid with
  | none => simp [updateCartQuantityRoute, h0, hp] at hr
  | some p =>
    by_cases hneg : cartGet st.cart pid size + dq < 0
    · simp [updateCartQuantityRoute, h0, hp, hneg] at hr
    · cases hf : st.orders.find? isPendingB with
      | none =>
        simp [updateCartQuantityRoute, h0, hp, hneg, hf] at hr
        subst hr
        exact h1
      | some o =>
        have hoo : orderInvB catalog o = true :=
          List.all_eq_true.mp h1 o (List.mem_of_find?_eq_some hf)
        simp [updateCartQuantityRoute, h0, hp, hneg, hf] at hr
        subst hr
        exact all_replaceFirstPending _ _ _ h1
          (setQtyOrder_inv catalog p pid size _ st.today o hp hoo)

theorem clearCart_inv (catalog : List Product) (st : St)
    (h1 : ordersInvB catalog st = true) :
    ordersInvB catalog (clearCartRoute st) = true := by
  unfold ordersInvB at h1 ⊢
  unfold clearCartRoute
  cases hf : st.orders.find? isPendingB with
  | some o =>
    simp only [hf]
    have hoo : orderInvB catalog o = true :=
      List.all_eq_true.mp h1 o (List.mem_of_find?_eq_some hf)
    exact all_replaceFirstPending _ _ _ h1 (orderInvB_of_eq catalog o _ rfl rfl hoo)
  | none => simpa only [hf] using h1

theorem checkout_ok_inv (catalog : List Product) (st : St)
    (address phone pm : String) (tid : Option String) (st' : St)
    (hr : checkoutRoute catalog st address phone pm tid = Except.ok st')
    (h1 : ordersInvB catalog st = true) : ordersInvB catalog st' = true := by
  by_cases hv : address = "" ∨ phone = "" ∨ pm = ""
  · simp [checkoutRoute, hv] at hr
  by_cases hpm : ¬pm = "cash_on_delivery" ∧ ¬pm = "bank_transfer"
      ∧ ¬pm = "stripe" ∧ ¬pm = "paypal"
  · simp [checkoutRoute, hv, hpm] at hr
  by_cases hce : st.cart = []
  · simp [checkoutRoute, hv, hpm, hce] at hr
  cases hf : st.orders.find? isPendingB with
  | some o =>
    simp [checkoutRoute, hv, hpm, hce, hf] at hr
    subst hr
    refine all_replaceFirstPending _ _ _ h1 ?_
    simp [orderInvB, buildCheckoutItems_inv, checkoutTotal_eq]
  | none =>
    simp [checkoutRoute, hv, hpm, hce, hf] at hr
    subst hr
    simp only [ordersInvB, List.all_append, Bool.and_eq_true]
    refine ⟨h1, ?_⟩
    simp [orderInvB, buildCheckoutItems_inv, checkoutTotal_eq]

theorem setOrderStatus_ok_inv (catalog : List Product) (st : St) (idx : Nat)
    (s : OrderStatus) (reason : Option String) (st' : St)
    (hr : setOrderStatusRoute st idx s reason = Except.ok st')
    (h1 : ordersInvB catalog st = true) : ordersInvB catalog st' = true := by
  cases ho : st.orders[idx]? with
  | none => simp [setOrderStatusRoute, ho] at hr
  | some o =>
    simp [setOrderStatusRoute, ho] at hr
    subst hr
    refine all_set _ _ _ _ h1 ?_
    exact orderInvB_of_eq catalog o _ (adminStatusOrder_items o s reason st.today)
      (adminStatusOrder_total o s reason st.today)
      (all_getElem? _ _ _ _ h1 ho)

theorem deleteOrder_ok_inv (catalog : List Product) (st : St) (idx : Nat) (st' : St)
    (hr : deleteOrderRoute st idx = Except.ok st')
    (h1 : ordersInvB catalog st = true) : ordersInvB catalog st' = true := by
  cases ho : st.orders[idx]? with
  | none => simp [deleteOrderRoute, ho] at hr
  | some o =>
    simp [deleteOrderRoute, ho] at hr
    subst hr
    exact all_eraseIdx _ _ _ h1

theorem applyOp_inv (catalog : List Product) (st : St) (op : Op)
    (h1 : ordersInvB catalog st = true) :
    ordersInvB catalog (applyOp catalog st op) = true := by
  cases op with
  | addToCart pid q size pm =>
    simp only [applyOp, runOp]
    cases hr : addToCartRoute catalog st pid q size pm with
    | ok st' => exact addToCart_ok_inv _ _ _ _ _ _ _ hr h1
    | error e => exact h1
  | updateCartQuantity pid size dq =>
    simp only [applyOp, runOp]
    cases hr : updateCartQuantityRoute catalog st pid size dq with
    | ok st' => exact updateCartQuantity_ok_inv _ _ _ _ _ _ hr h1
    | error e => exact h1
  | clearCart =>
    simp only [applyOp, runOp]
    exact clearCart_inv _ _ h1
  | checkout a ph pm tid =>
    simp only [applyOp, runOp]
    cases hr : checkoutRoute catalog st a ph pm tid with
    | ok st' => exact checkout_ok_inv _ _ _ _ _ _ _ hr h1
    | error e => exact h1
  | setOrderStatus idx s reason =>
    simp only [applyOp, runOp]
    cases hr : setOrderStatusRoute st idx s reason with
    | ok st' => exact setOrderStatus_ok_inv _ _ _ _ _ _ hr h1
    | error e => exact h1
  | deleteOrder idx =>
    simp only [applyOp, runOp]
    cases hr : deleteOrderRoute st idx with
    | ok st' => exact deleteOrder_ok_inv _ _ _ _ hr h1
    | error e => exact h1

theorem applyOps_inv (catalog : List Product) (ops : List Op) (st : St)
    (h1 : ordersInvB catalog st = true) :
    ordersInvB catalog (applyOps catalog st ops) = true := by
  induction ops generalizing st with
  | nil => exact h1
  | cons op rest ih => exact ih _ (applyOp_inv catalog st op h1)

theorem totalConsistent_of_ordersInv (catalog : List Product) (st : St)
    (h : ordersInvB catalog st = true) : totalConsistentB st = true := by
  unfold ordersInvB at h
  unfold totalConsistentB
  refine all_mono _ _ ?_ _ h
  intro o hoo
  simp only [orderInvB, Bool.and_eq_true] at hoo
  simp only [Bool.and_eq_true]
  refine ⟨?_, hoo.2⟩
  refine all_mono _ _ ?_ _ hoo.1
  intro it hit
  simp only [itemInvB, decide_eq_true_eq] at hit
  simp [hit.1]

/-- Claim C2: starting from a fresh user and running any sequence of cart,
checkout and admin operations against a fixed catalog, every order satisfies
total consistency: each item total equals its stored price times its
quantity (also through the path that merges a positive delta into an
existing item, which adds price times delta to the item total), and each
order total equals the sum of its item totals. -/
theorem order_total_consistency (catalog : List Product) (ops : List Op) :
    totalConsistentB (applyOps catalog initSt ops) = true :=
  totalConsistent_of_ordersInv catalog _ (applyOps_inv catalog ops initSt rfl)

/-! ### Cart positivity (C8) -/

theorem sizeMapSet_pos (sm : SizeMap) (size : String) (q : Int)
    (hl : sm.all (fun sq => decide (0 < sq.2)) = true) (hq : 0 < q) :
    (sizeMapSet sm size q).all (fun sq => decide (0 < sq.2)) = true := by
  induction sm with
  | nil => simp [sizeMapSet, hq]
  | cons sq rest ih =>
    simp only [List.all_cons, Bool.and_eq_true] at hl
    by_cases h : sq.1 = size
    · rw [show sizeMapSet (sq :: rest) size q = (size, q) :: rest from by
        simp [sizeMapSet, h]]
      simp only [List.all_cons, Bool.and_eq_true]
      exact ⟨decide_eq_true hq, hl.2⟩
    · rw [show sizeMapSet (sq :: rest) size q = sq :: sizeMapSet rest size q from by
        simp [sizeMapSet, h]]
      simp only [List.all_cons, Bool.and_eq_true]
      exact ⟨hl.1, ih hl.2⟩

theorem cartSet_pos (c : CartData) (pid : Nat) (size : String) (q : Int)
    (hl : cartPositiveB c = true) (hq : 0 < q) :
    cartPositiveB (cartSet c pid size q) = true := by
  unfold cartPositiveB at hl ⊢
  induction c with
  | nil => simp [cartSet, hq]
  | cons e rest ih =>
    simp only [List.all_cons, Bool.and_eq_true] at hl
    by_cases h : e.1 = pid
    · rw [show cartSet (e :: rest) pid size q = (pid, sizeMapSet e.2 size q) :: rest from by
        simp [cartSet, h]]
      simp only [List.all_cons, Bool.and_eq_true]
      exact ⟨sizeMapSet_pos e.2 size q hl.1 hq, hl.2⟩
    · rw [show cartSet (e :: rest) pid size q = e :: cartSet rest pid size q from by
        simp [cartSet, h]]
      simp only [List.all_cons, Bool.and_eq_true]
      exact ⟨hl.1, ih hl.2⟩

theorem all_filter_sub {α : Type} (P f : α → Bool) (l : List α)
    (hl : l.all P = true) : (l.filter f).all P = true := by
  induction l with
  | nil => rfl
  | cons a rest ih =>
    simp only [List.all_cons, Bool.and_eq_true] at hl
    rw [List.filter_cons]
    by_cases h : f a = true
    · rw [if_pos h]
      simp only [List.all_cons, Bool.and_eq_true]
      exact ⟨hl.1, ih hl.2⟩
    · rw [if_neg h]
      exact ih hl.2

theorem cartDel_pos (c : CartData) (pid : Nat) (size : String)
    (hl : cartPositiveB c = true) : cartPositiveB (cartDel c pid size) = true := by
  unfold cartPositiveB at hl ⊢
  induction c with
  | nil => rfl
  | cons e rest ih =>
    simp only [List.all_cons, Bool.and_eq_true] at hl
    by_cases h : e.1 = pid
    · by_cases hemp : (e.2.filter (fun sq => !(decide (sq.1 = size)))).isEmpty = true
      · rw [show cartDel (e :: rest) pid size = rest from by
          simp only [cartDel, h, if_true]
          rw [if_pos hemp]]
        exact hl.2
      · rw [show cartDel (e :: rest) pid size
            = (pid, e.2.filter (fun sq => !(decide (sq.1 = size)))) :: rest from by
          simp only [cartDel, h, if_true]
          rw [if_neg hemp]]
        simp only [List.all_cons, Bool.and_eq_true]
        exact ⟨all_filter_sub _ _ _ hl.1, hl.2⟩
    · rw [show cartDel (e :: rest) pid size = e :: cartDel rest pid size from by
        simp [cartDel, h]]
      simp only [List.all_cons, Bool.and_eq_true]
      exact ⟨hl.1, ih hl.2⟩

theorem cartApplyDelta_pos (c : CartData) (pid : Nat) (size : String) (dq : Int)
    (hl : cartPositiveB c = true) :
    cartPositiveB (cartApplyDelta c pid size dq) = true := by
  unfold cartApplyDelta
  by_cases h : cartGet c pid size + dq ≤ 0
  · simp only [h, if_true]
    exact cartDel_pos c pid size hl
  · simp only [h, if_false]
    exact cartSet_pos c pid size _ hl (by omega)

theorem createOrUpdateOrder_cart (st : St) (p : Product) (q : Int)
    (size pm : String) : (createOrUpdateOrder st p q size pm).cart = st.cart := by
  unfold createOrUpdateOrder
  cases hf : st.orders.find? isPendingB with
  | some o => simp only [hf]
  | none =>
    simp only [hf]
    split <;> rfl

theorem addToCart_ok_posCart (catalog : List Product) (st : St) (pid : Nat)
    (q : Int) (size pm : String) (st' : St)
    (hr : addToCartRoute catalog st pid q size pm = Except.ok st')
    (h1 : cartPositiveB st.cart = true) : cartPositiveB st'.cart = true := by
  by_cases h0 : q = 0
  · simp [addToCartRoute, h0] at hr
  by_cases hsz : size = "" ∨ size = "default"
  · simp [addToCartRoute, h0, hsz] at hr
  cases hp : findProduct catalog pid with
  | none => simp [addToCartRoute, h0, hsz, hp] at hr
  | some p =>
    by_cases hct : size ∈ (if p.sizes = [] then ["S", "M", "L", "XL", "XXL"] else p.sizes)
    · simp [addToCartRoute, h0, hsz, hp, hct] at hr
      subst hr
      rw [createOrUpdateOrder_cart]
      exact cartApplyDelta_pos st.cart pid size q h1
    · simp [addToCartRoute, h0, hsz, hp, hct] at hr

theorem updateCartQuantity_ok_posCart (catalog : List Product) (st : St)
    (pid : Nat) (size : String) (dq : Int) (st' : St)
    (hr : updateCartQuantityRoute catalog st pid size dq = Except.ok st')
    (h1 : cartPositiveB st.cart = true) : cartPositiveB st'.cart = true := by
  by_cases h0 : pid = 0
  · simp [updateCartQuantityRoute, h0] at hr
  cases hp : findProduct catalog pid with
  | none => simp [updateCartQuantityRoute, h0, hp] at hr
  | some p =>
    by_cases hneg : cartGet st.cart pid size + dq < 0
    · simp [updateCartQuantityRoute, h0, hp, hneg] at hr
    · have hcart1 : cartPositiveB
          (if cartGet st.cart pid size + dq ≤ 0 then cartDel st.cart pid size
           else cartSet st.cart pid size (cartGet st.cart pid size + dq)) = true := by
        by_cases hz : cartGet st.cart pid size + dq ≤ 0
        · simp only [hz, if_true]
          exact cartDel_pos st.cart pid size h1
        · simp only [hz, if_false]
          exact cartSet_pos st.cart pid size _ h1 (by omega)
      cases hf : st.orders.find? isPendingB with
      | none =>
        simp [updateCartQuantityRoute, h0, hp, hneg, hf] at hr
        subst hr
        exact hcart1
      | some o =>
        simp [updateCartQuantityRoute, h0, hp, hneg, hf] at hr
        subst hr
        exact hcart1

theorem clearCart_posCart (st : St) : cartPositiveB (clearCartRoute st).cart = true := by
  unfold clearCartRoute
  cases hf : st.orders.find? isPendingB with
  | some o => simp only [hf]; rfl
  | none => simp only [hf]; rfl

theorem checkout_ok_posCart (catalog : List Product) (st : St)
    (address phone pm : String) (tid : Option String) (st' : St)
    (hr : checkoutRoute catalog st address phone pm tid = Except.ok st') :
    cartPositiveB st'.cart = true := by
  by_cases hv : address = "" ∨ phone = "" ∨ pm = ""
  · simp [checkoutRoute, hv] at hr
  by_cases hpm : ¬pm = "cash_on_delivery" ∧ ¬pm = "bank_transfer"
      ∧ ¬pm = "stripe" ∧ ¬pm = "paypal"
  · simp [checkoutRoute, hv, hpm] at hr
  by_cases hce : st.cart = []
  · simp [checkoutRoute, hv, hpm, hce] at hr
  cases hf : st.orders.find? isPendingB with
  | some o =>
    simp [checkoutRoute, hv, hpm, hce, hf] at hr
    subst hr
    rfl
  | none =>
    simp [checkoutRoute, hv, hpm, hce, hf] at hr
    subst hr
    rfl

theorem setOrderStatus_ok_posCart (st : St) (idx : Nat) (s : OrderStatus)
    (reason : Option String) (st' : St)
    (hr : setOrderStatusRoute st idx s reason = Except.ok st')
    (h1 : cartPositiveB st.cart = true) : cartPositiveB st'.cart = true := by
  cases ho : st.orders[idx]? with
  | none => simp [setOrderStatusRoute, ho] at hr
  | some o =>
    simp [setOrderStatusRoute, ho] at hr
    subst hr
    exact h1

theorem deleteOrder_ok_posCart (st : St) (idx : Nat) (st' : St)
    (hr : deleteOrderRoute st idx = Except.ok st')
    (h1 : cartPositiveB st.cart = true) : cartPositiveB st'.cart = true := by
  cases ho : st.orders[idx]? with
  | none => simp [deleteOrderRoute, ho] at hr
  | some o =>
    simp [deleteOrderRoute, ho] at hr
    subst hr
    exact h1

theorem applyOp_posCart (catalog : List Product) (st : St) (op : Op)
    (h1 : cartPositiveB st.cart = true) :
    cartPositiveB (applyOp catalog st op).cart = true := by
  cases op with
  | addToCart pid q size pm =>
    simp only [applyOp, runOp]
    cases hr : addToCartRoute catalog st pid q size pm with
    | ok st' => exact addToCart_ok_posCart _ _ _ _ _ _ _ hr h1
    | error e => exact h1
  | updateCartQuantity pid size dq =>
    simp only [applyOp, runOp]
    cases hr : updateCartQuantityRoute catalog st pid size dq with
    | ok st' => exact updateCartQuantity_ok_posCart _ _ _ _ _ _ hr h1
    | error e => exact h1
  | clearCart =>
    simp only [applyOp, runOp]
    exact clearCart_posCart st
  | checkout a ph pm tid =>
    simp only [applyOp, runOp]
    cases hr : checkoutRoute catalog st a ph pm tid with
    | ok st' => exact checkout_ok_posCart _ _ _ _ _ _ _ hr
    | error e => exact h1
  | setOrderStatus idx s reason =>
    simp only [applyOp, runOp]
    cases hr : setOrderStatusRoute st idx s reason with
    | ok st' => exact setOrderStatus_ok_posCart _ _ _ _ _ hr h1
    | error e => exact h1
  | deleteOrder idx =>
    simp only [applyOp, runOp]
    cases hr : deleteOrderRoute st idx with
    | ok st' => exact deleteOrder_ok_posCart _ _ _ hr h1
    | error e => exact h1

theorem applyOps_posCart (catalog : List Product) (ops : List Op) (st : St)
    (h1 : cartPositiveB st.cart = true) :
    cartPositiveB (applyOps catalog st ops).cart = true := by
  induction ops generalizing st with
  | nil => exact h1
  | cons op rest ih => exact ih _ (applyOp_posCart catalog st op h1)

/-- Claim C8 (amended): after any sequence of operations every stored cart
line quantity is positive - a mutation whose resulting quantity would be zero
or below deletes the line instead of storing it - while the maximum of 10 is
enforced only by the client-side clamp of handleUpdateQuantity, whose output
always lies in the range 1 to 10; the server storage layer itself accepts
quantities above 10 (see the counterexample). -/
theorem cart_quantity_bounds :
    (∀ (catalog : List Product) (ops : List Op),
        cartPositiveB (applyOps catalog initSt ops).cart = true)
    ∧ (∀ n : Int, 1 ≤ clampQty n ∧ clampQty n ≤ 10) := by
  constructor
  · intro catalog ops
    exact applyOps_posCart catalog ops initSt rfl
  · intro n
    unfold clampQty
    split
    · omega
    · split <;> omega

end Shop
